import Mathlib

/-!
Verification of the BioGraphRAG retrieval and graph-expansion engine.

This file gives a shallow embedding of the retrieval core of the repository:

* `src/retrieval/expand_local.py`   — NetworkX-backed local graph expansion
* `src/retrieval/vector_store_local.py` — FAISS `IndexFlatL2` query path
* `src/retrieval/vector_store.py`   — FAISS `IndexFlatIP` query path with
  namespace filtering
* `src/retrieval/realtime_apis.py`  — live PubMed / NCBI fetchers, literature
  mining and rate limiting
* `src/retrieval/expand_realtime.py` — live-backend expansion entry point

Python floats are modelled as rationals (`ℚ`), Python dictionaries with a
fixed key set as structures, heterogeneous node dictionaries as an inductive
sum, and the HTTP layer as an explicit environment of responses where a raised
exception (timeout, non-2xx status via raise_for_status, or a JSON/XML parse
error) is `Except.error`.
-/

/- ### Local graph model (expand_local.py)

`load_local_graph` builds an `nx.DiGraph` whose node attributes are
`~id` (equal to the node key), `~labels`, `name`, `description`, `type`,
`properties`, and whose edge attributes are `~from`/`~to` (equal to the edge
key), `~type`/`relation`, `description`, `properties`.  Since the `~id`,
`~from`, `~to` attributes always coincide with the graph keys, they are
represented by the keys themselves.  NetworkX guarantees that node keys are
unique, that there is at most one edge per ordered pair, and that edge
endpoints are nodes of the graph; these are the three invariants carried by
the structure. -/

structure NodeData where
  labels : List String
  name : String
  description : String
  type : String
  properties : List (String × String)
deriving DecidableEq

structure EdgeData where
  relation : String
  description : String
  properties : List (String × String)
deriving DecidableEq

structure DiGraph where
  nodes : List (String × NodeData)
  edges : List ((String × String) × EdgeData)
  nodes_nodup : (nodes.map Prod.fst).Nodup
  edges_nodup : (edges.map Prod.fst).Nodup
  edges_mem : ∀ e ∈ edges, e.1.1 ∈ nodes.map Prod.fst ∧ e.1.2 ∈ nodes.map Prod.fst

/-- The node ids of the graph, in insertion order (`G.nodes()`). -/
def DiGraph.nodeIds (G : DiGraph) : List String :=
  G.nodes.map Prod.fst

/-- `list(G.successors(n))`: targets of edges out of `n`, in insertion order. -/
def DiGraph.successors (G : DiGraph) (n : String) : List String :=
  (G.edges.filter (fun e => e.1.1 = n)).map (fun e => e.1.2)

/-- `list(G.predecessors(n))`: sources of edges into `n`, in insertion order. -/
def DiGraph.predecessors (G : DiGraph) (n : String) : List String :=
  (G.edges.filter (fun e => e.1.2 = n)).map (fun e => e.1.1)

/-- One node dictionary of the returned subgraph (expand_local.py lines
150-157): keys `~id`, `~labels`, `name`, `description`, `type`, plus the
spread of the node's `properties` map. -/
structure NodeOut where
  tildeId : String
  tildeLabels : List String
  name : String
  description : String
  type : String
  extra : List (String × String)
deriving DecidableEq

/-- One relationship dictionary of the returned subgraph (expand_local.py
lines 162-169): keys `~from`, `~to`, `~type`, `relation`, `description`, plus
the spread of the edge's `properties` map. -/
structure RelOut where
  tildeFrom : String
  tildeTo : String
  tildeType : String
  relation : String
  description : String
  extra : List (String × String)
deriving DecidableEq

/-- The single dictionary with keys `"nodes"` and `"rels"` that both
expansion entry points wrap in a one-element list. -/
structure ExpandOut (ν ρ : Type) where
  nodes : List ν
  rels : List ρ
deriving DecidableEq

/-- Body of the `for _ in range(hops)` loop (expand_local.py lines 127-141):
from the current layer, collect up to `max_degree` successors and up to
`max_degree` predecessors of every member that is present in the graph.
Python's `set.update` only ever feeds membership tests downstream, so layers
are lists read up to membership. -/
def nextLayerOf (G : DiGraph) (max_degree : Nat) (layer : List String) : List String :=
  layer.flatMap (fun node_id =>
    if node_id ∈ G.nodeIds then
      (G.successors node_id).take max_degree ++ (G.predecessors node_id).take max_degree
    else [])

/-- One iteration of the hop loop on the state
`(expanded_nodes, current_layer)`; `expanded_nodes.update(next_layer)` is
list append, read up to membership. -/
def expandStep (G : DiGraph) (max_degree : Nat) (st : List String × List String) :
    List String × List String :=
  let next := nextLayerOf G max_degree st.2
  (st.1 ++ next, next)

/-- `hops` iterations of the hop loop. -/
def expandIter (G : DiGraph) (max_degree : Nat) : Nat → List String × List String →
    List String × List String
  | 0, st => st
  | n + 1, st => expandStep G max_degree (expandIter G max_degree n st)

/-- Embedding of `expand_subgraph` (expand_local.py lines 94-173).  The
second component of the result records whether `load_local_graph` was
invoked: line 118 (`G = load_local_graph(config_path)`) runs unconditionally,
before the empty-seed check on line 120, so the flag is `true` on every
path.  `set(seed_ids)` is `seed_ids.dedup`; `G.subgraph(expanded_nodes)`
iterates the graph's nodes and edges restricted to `expanded_nodes`. -/
def expand_subgraph (G : DiGraph) (seed_ids : List String) (hops max_degree : Nat) :
    List (ExpandOut NodeOut RelOut) × Bool :=
  let graph_loaded := true
  if seed_ids.isEmpty then ([⟨[], []⟩], graph_loaded)
  else
    let seeds := seed_ids.dedup
    let expanded := (expandIter G max_degree hops (seeds, seeds)).1
    let nodes := (G.nodes.filter (fun p => decide (p.1 ∈ expanded))).map (fun p =>
      ⟨p.1, p.2.labels, p.2.name, p.2.description, p.2.type, p.2.properties⟩)
    let rels := (G.edges.filter (fun e =>
        decide (e.1.1 ∈ expanded) && decide (e.1.2 ∈ expanded))).map (fun e =>
      ⟨e.1.1, e.1.2, e.2.relation, e.2.relation, e.2.description, e.2.properties⟩)
    ([⟨nodes, rels⟩], graph_loaded)

/-- Ids of the nodes of the (unique) subgraph dictionary returned by
`expand_subgraph`. -/
def expandNodeIds (G : DiGraph) (seed_ids : List String) (hops max_degree : Nat) :
    List String :=
  (((expand_subgraph G seed_ids hops max_degree).1.headD ⟨[], []⟩).nodes).map
    (fun n => n.tildeId)

/-- (source, target) pairs of the relationships of the subgraph dictionary
returned by `expand_subgraph`. -/
def expandEdgePairs (G : DiGraph) (seed_ids : List String) (hops max_degree : Nat) :
    List (String × String) :=
  (((expand_subgraph G seed_ids hops max_degree).1.headD ⟨[], []⟩).rels).map
    (fun r => (r.tildeFrom, r.tildeTo))

/- ### Vector stores (vector_store_local.py, vector_store.py)

FAISS float32 vectors and scores are modelled as rationals.  An index state
is the list of records in insertion order: the FAISS rows and the metadata
rows are written as parallel arrays by the source, so one list of records
captures both (`index.ntotal = store.length`).  An exact flat search sorts
all rows by the metric and keeps the first `k`; insertion sort is stable, so
ties are broken by insertion order exactly as in the spec. -/

/-- Squared L2 distance, the metric of `faiss.IndexFlatL2` (vectors of an
index share one dimension, so `zipWith` loses nothing). -/
def l2sq (q v : List ℚ) : ℚ :=
  (List.zipWith (fun a b => (a - b) ^ 2) q v).sum

/-- Inner product, the metric of `faiss.IndexFlatIP`. -/
def dotIP (q v : List ℚ) : ℚ :=
  (List.zipWith (· * ·) q v).sum

/-- Ascending order on (row index, distance) pairs, by distance. -/
def distLE (a b : Nat × ℚ) : Prop := a.2 ≤ b.2

instance : DecidableRel distLE := fun a b => inferInstanceAs (Decidable (a.2 ≤ b.2))

instance : IsTotal (Nat × ℚ) distLE := ⟨fun a b => le_total a.2 b.2⟩

instance : IsTrans (Nat × ℚ) distLE := ⟨fun _ _ _ h h' => le_trans h h'⟩

/-- Descending order on (row index, score) pairs, by score. -/
def simGE (a b : Nat × ℚ) : Prop := b.2 ≤ a.2

instance : DecidableRel simGE := fun a b => inferInstanceAs (Decidable (b.2 ≤ a.2))

instance : IsTotal (Nat × ℚ) simGE := ⟨fun a b => le_total b.2 a.2⟩

instance : IsTrans (Nat × ℚ) simGE := ⟨fun _ _ _ h h' => le_trans h' h⟩

/-- `faiss.IndexFlatL2.search(q, k)`: the `k` nearest rows as
(row index, squared distance) pairs, ascending by distance.  FAISS pads a
short result with index `-1`; the model simply returns the `min k n` real
hits, and the caller-side skip of `-1` maps to nothing. -/
def IndexFlatL2.search (vecs : List (List ℚ)) (q : List ℚ) (k : Nat) : List (Nat × ℚ) :=
  (List.insertionSort distLE (vecs.map (l2sq q)).enum).take k

/-- `faiss.IndexFlatIP.search(q, k)`: the `k` best rows as
(row index, inner-product score) pairs, descending by score. -/
def IndexFlatIP.search (vecs : List (List ℚ)) (q : List ℚ) (k : Nat) : List (Nat × ℚ) :=
  (List.insertionSort simGE (vecs.map (dotIP q)).enum).take k

/-- One metadata record of the local FAISS store
(vector_store_local.py lines 66-72) together with its index row. -/
structure LocalRec where
  id : String
  type : String
  name : String
  description : String
  text : String
  vector : List ℚ

/-- One query result of `query_local_vectors`: the copied metadata record
plus the `score` key set to the FAISS distance. -/
structure LocalOut where
  id : String
  type : String
  name : String
  description : String
  text : String
  score : ℚ

/-- Embedding of `query_local_vectors` (vector_store_local.py lines
143-177): empty index returns `[]`; otherwise search for
`min(top_k, index.ntotal)` hits and keep those whose row index is a valid
metadata subscript (`if idx < len(metadata)`, expressed by the partial
lookup `store[p.1]?`). -/
def query_local_vectors (store : List LocalRec) (query_vector : List ℚ) (top_k : Nat) :
    List LocalOut :=
  if store.length = 0 then []
  else
    let pairs := IndexFlatL2.search (store.map (fun r => r.vector)) query_vector
      (min top_k store.length)
    pairs.filterMap (fun p =>
      (store[p.1]?).map (fun r => ⟨r.id, r.type, r.name, r.description, r.text, p.2⟩))

/-- One record of the dual-graph FAISS store (vector_store.py): the id row,
the metadata row `(type, namespace)` and the (normalised) vector row are
parallel arrays.  `nspace` stands for the source's `namespace` field, which
is a reserved word here. -/
structure VSRec where
  id : String
  type : String
  nspace : String
  vector : List ℚ

/-- One query result of `query_vectors` (faiss backend): the `text` key is
always `None` for this backend. -/
structure VSOut where
  id : String
  type : String
  nspace : String
  score : ℚ
  text : Option String

/-- The loop body of the faiss branch of `query_vectors` (vector_store.py
lines 236-248) for one search hit: skip it when its index is `-1` (absorbed
into the search model) or when the configured filter is non-empty and does
not contain the hit's namespace, otherwise produce the result row. -/
def qv_entry (namespaces : List String) (store : List VSRec) (p : Nat × ℚ) :
    Option VSOut :=
  match store[p.1]? with
  | none => none
  | some r =>
    if namespaces ≠ [] ∧ r.nspace ∉ namespaces then none
    else some ⟨r.id, r.type, r.nspace, p.2, none⟩

/-- Embedding of the faiss branch of `query_vectors` (vector_store.py lines
226-249), with the loop body factored out as `qv_entry`.  The source divides
the query by `np.linalg.norm(q) + 1e-12`, a strictly positive scalar that is
irrational in general; since it rescales every inner-product score by the
same positive factor, the embedding takes the query as already normalised.
`namespaces` is the configured `retrieval.namespaces.include` list
(default `[]`). -/
def query_vectors (namespaces : List String) (store : List VSRec)
    (query_vector : List ℚ) (top_k : Nat) : List VSOut :=
  if store.length = 0 then []
  else
    let pairs := IndexFlatIP.search (store.map (fun r => r.vector)) query_vector top_k
    pairs.filterMap (qv_entry namespaces store)

/- ### Real-time biomedical fetchers (realtime_apis.py)

The HTTP layer is an environment of responses, one field per distinct
E-utilities request the fetcher issues, keyed by the request parameters the
source computes (search term and `retmax`, or the id list).  A response is
`Except.error ()` when the call raises inside the `try` block — timeout,
`raise_for_status` on a non-2xx status, or a JSON/XML parse failure — and
`Except.ok payload` when it parses, with absent payload fields as `none`
(dict `.get` / optional XML elements).  `_rate_limit` only affects timing,
never a returned value; it is modelled separately below for the timing
claim. -/

/-- A Python string lowercased, `str.lower()` (ASCII data in this code). -/
def lowerStr (s : String) : String :=
  ⟨s.data.map Char.toLower⟩

/-- Python's substring test `needle in hay` on char lists. -/
def containsSub : List Char → List Char → Bool
  | [], needle => needle.isEmpty
  | c :: t, needle => needle.isPrefixOf (c :: t) || containsSub t needle

/-- Python's substring test `needle in hay` on strings. -/
def isSubstringOf (needle hay : String) : Bool :=
  containsSub hay.data needle.data

/-- Helper for `str.replace` with explicit fuel (one char of progress per
step; the fuel is the haystack length, enough for the non-empty patterns the
source uses). -/
def replaceAux : Nat → List Char → List Char → List Char → List Char
  | 0, s, _, _ => s
  | _ + 1, [], _, _ => []
  | fuel + 1, c :: t, pat, rep =>
    if pat.isEmpty then c :: t
    else if pat.isPrefixOf (c :: t) then
      rep ++ replaceAux fuel (List.drop pat.length (c :: t)) pat rep
    else c :: replaceAux fuel t pat rep

/-- Python's `str.replace(pat, rep)` (all occurrences, left to right). -/
def pyReplace (s pat rep : String) : String :=
  ⟨replaceAux s.data.length s.data pat.data rep.data⟩

/-- Helper for `str.title`: uppercase a letter after a non-letter, lowercase
a letter after a letter. -/
def pyTitleAux : Bool → List Char → List Char
  | _, [] => []
  | prevAlpha, c :: t =>
    (if c.isAlpha then (if prevAlpha then c.toLower else c.toUpper) else c) ::
      pyTitleAux c.isAlpha t

/-- Python's `str.title()` (ASCII data in this code). -/
def pyTitle (s : String) : String :=
  ⟨pyTitleAux false s.data⟩

/-- One entry of the `esummary` gene `result` dictionary; every field is
read with a defaulting `.get`, so all are optional. -/
structure GeneSummary where
  name : Option String := none
  description : Option String := none
  summary : Option String := none
  organismSci : Option String := none
  chromosome : Option String := none

/-- One `Author` element of a PubMed `efetch` XML response. -/
structure PubmedAuthor where
  lastName : Option String := none
  foreName : Option String := none

/-- One `PubmedArticle` element of a PubMed `efetch` XML response; absent
`PMID`/`ArticleTitle`/`AbstractText` elements are `none`. -/
structure PubmedArticle where
  pmid : Option String := none
  title : Option String := none
  abstract : Option String := none
  authors : List PubmedAuthor := []

/-- A property value: the source's property maps hold strings and lists of
strings (the `pmids` list). -/
inductive PVal where
  | str (s : String)
  | strs (l : List String)
deriving DecidableEq

/-- A gene dictionary as built by `fetch_gene_details`
(realtime_apis.py lines 132-145). -/
structure GeneRec where
  id : String
  symbol : String
  name : String
  description : String
  organism : String
  chromosome : String
  ncbi_id : String
  properties : List (String × PVal)
deriving DecidableEq

/-- A publication dictionary as built by `fetch_publication_details`
(realtime_apis.py lines 247-258). -/
structure Publication where
  id : String
  pmid : String
  title : String
  abstract : String
  authors : List String
  properties : List (String × PVal)
deriving DecidableEq

/-- A disease dictionary as built by `build_realtime_graph`
(realtime_apis.py lines 360-366). -/
structure DiseaseRec where
  id : String
  name : String
  description : String
  properties : List (String × PVal)
deriving DecidableEq

/-- A node of the real-time graph: the `nodes` list mixes the three
dictionary shapes (their `type` keys are `"Gene"`, `"Publication"`,
`"Disease"` respectively). -/
inductive RTNode where
  | gene (g : GeneRec)
  | pub (p : Publication)
  | disease (d : DiseaseRec)
deriving DecidableEq

/-- The `id` key, present in every node dictionary shape. -/
def RTNode.id : RTNode → String
  | .gene g => g.id
  | .pub p => p.id
  | .disease d => d.id

/-- An edge dictionary of the real-time graph. -/
structure RTEdge where
  source : String
  target : String
  relation : String
  description : String
  properties : List (String × PVal)
deriving DecidableEq

/-- The graph dictionary returned by `build_realtime_graph`. -/
structure RTGraph where
  nodes : List RTNode
  edges : List RTEdge
deriving DecidableEq

/-- The environment of HTTP responses consumed by `BiomedicalDataFetcher`:
gene `esearch` and `esummary`, PubMed `esearch` and `efetch`.  `retmax` is an
`Int` because the source can pass a negative `max_results` through
`max_nodes - len(nodes)`. -/
structure ApiEnv where
  gene_esearch : String → Int → Except Unit (List String)
  gene_esummary : List String → Except Unit (List (String × GeneSummary))
  pubmed_esearch : String → Int → Except Unit (List String)
  pubmed_efetch : List String → Except Unit (List PubmedArticle)

/-- Embedding of `BiomedicalDataFetcher.fetch_gene_details`
(realtime_apis.py lines 98-151): on any raised error return `[]`; otherwise
turn each `result` entry except `"uids"` into a gene dictionary, defaulting
each absent field exactly as the chained `.get` calls do. -/
def BiomedicalDataFetcher.fetch_gene_details (env : ApiEnv) (gene_ids : List String) :
    List GeneRec :=
  match env.gene_esummary gene_ids with
  | .error _ => []
  | .ok items =>
    (items.filter (fun it => decide (it.1 ≠ "uids"))).map (fun it =>
      { id := "GENE_" ++ it.2.name.getD it.1
        symbol := it.2.name.getD ""
        name := it.2.description.getD ""
        description := it.2.summary.getD ""
        organism := it.2.organismSci.getD "Homo sapiens"
        chromosome := it.2.chromosome.getD ""
        ncbi_id := it.1
        properties := [("source", .str "ncbi_gene"), ("gene_id", .str it.1)] })

/-- Embedding of `BiomedicalDataFetcher.search_genes` (realtime_apis.py
lines 56-96): search `db=gene` with the term built from the query; on error
return `[]`; on an empty id list return `[]`; otherwise fetch details. -/
def BiomedicalDataFetcher.search_genes (env : ApiEnv) (query : String)
    (max_results : Int) : List GeneRec :=
  match env.gene_esearch (query ++ "[Gene Name] AND Homo sapiens[Organism]") max_results with
  | .error _ => []
  | .ok gene_ids =>
    if gene_ids.isEmpty then []
    else BiomedicalDataFetcher.fetch_gene_details env gene_ids

/-- Embedding of `BiomedicalDataFetcher.fetch_publication_details`
(realtime_apis.py lines 196-264): on any raised error (including an XML
parse failure) return `[]`; otherwise build one publication dictionary per
`PubmedArticle`, with the source's defaults for missing elements. -/
def BiomedicalDataFetcher.fetch_publication_details (env : ApiEnv) (pmids : List String) :
    List Publication :=
  match env.pubmed_efetch pmids with
  | .error _ => []
  | .ok articles =>
    articles.map (fun a =>
      let pmid := a.pmid.getD "Unknown"
      { id := "PMID_" ++ pmid
        pmid := pmid
        title := a.title.getD "No title"
        abstract := a.abstract.getD "No abstract available"
        authors := a.authors.filterMap (fun au =>
          au.lastName.map (fun ln =>
            match au.foreName with
            | some f => f ++ " " ++ ln
            | none => ln))
        properties := [("source", .str "pubmed"),
          ("url", .str ("https://pubmed.ncbi.nlm.nih.gov/" ++ pmid ++ "/"))] })

/-- Embedding of `BiomedicalDataFetcher.search_publications`
(realtime_apis.py lines 153-194). -/
def BiomedicalDataFetcher.search_publications (env : ApiEnv) (query : String)
    (max_results : Int) : List Publication :=
  match env.pubmed_esearch query max_results with
  | .error _ => []
  | .ok pmids =>
    if pmids.isEmpty then []
    else BiomedicalDataFetcher.fetch_publication_details env pmids

/-- The fixed disease keyword table of `search_disease_gene_associations`
(realtime_apis.py lines 288-296), in insertion order. -/
def disease_keywords : List (String × String) :=
  [("cancer", "DISEASE_CANCER"),
   ("lung cancer", "DISEASE_LUNG_CANCER"),
   ("breast cancer", "DISEASE_BREAST_CANCER"),
   ("colon cancer", "DISEASE_COLON_CANCER"),
   ("diabetes", "DISEASE_DIABETES"),
   ("alzheimer", "DISEASE_ALZHEIMERS"),
   ("parkinson", "DISEASE_PARKINSONS")]

/-- The association edges one publication contributes for one gene symbol
(body of the loop of realtime_apis.py lines 283-310): one
`ASSOCIATED_WITH` edge per disease keyword found in the lowercased
title-plus-abstract text. -/
def associationsForPub (gene_symbol : String) (pub : Publication) : List RTEdge :=
  let text := lowerStr (pub.title ++ " " ++ pub.abstract)
  (disease_keywords.filter (fun dk => isSubstringOf dk.1 text)).map (fun dk =>
    { source := "GENE_" ++ gene_symbol
      target := dk.2
      relation := "ASSOCIATED_WITH"
      description := gene_symbol ++ " associated with " ++ dk.1
      properties := [("pmids", .strs [pub.pmid]),
        ("source", .str "pubmed_literature"),
        ("evidence", .str pub.title)] })

/-- Embedding of `BiomedicalDataFetcher.search_disease_gene_associations`
(realtime_apis.py lines 266-312). -/
def BiomedicalDataFetcher.search_disease_gene_associations (env : ApiEnv)
    (gene_symbol : String) : List RTEdge :=
  let publications := BiomedicalDataFetcher.search_publications env
    (gene_symbol ++ " AND disease[MeSH]") 10
  publications.flatMap (associationsForPub gene_symbol)

/-- The fixed gene keyword list of `build_realtime_graph`
(realtime_apis.py line 333). -/
def gene_keywords : List String :=
  ["EGFR", "TP53", "KRAS", "BRCA1", "BRCA2", "AKT1", "PIK3CA", "PTEN"]

/-- The disease node appended for an association edge's target
(realtime_apis.py lines 360-366). -/
def diseaseNodeFor (disease_id : String) : RTNode :=
  .disease
    { id := disease_id
      name := pyTitle (pyReplace (pyReplace disease_id "DISEASE_" "") "_" " ")
      description := "Disease entity from literature mining"
      properties := [("source", .str "pubmed_inferred")] }

/-- Embedding of `BiomedicalDataFetcher.build_realtime_graph`
(realtime_apis.py lines 314-382): extract gene mentions from the query by
keyword (falling back to a generic gene search), fetch publications, add one
`ASSOCIATED_WITH` edge per literature hit (capped at 5 per gene) together
with its target disease node if that id is not yet among the nodes, then one
`MENTIONS` edge per (publication, mentioned gene) pair found in the text. -/
def BiomedicalDataFetcher.build_realtime_graph (env : ApiEnv) (query : String)
    (max_nodes : Int) : RTGraph :=
  let mentioned₀ := gene_keywords.filter (fun g =>
    isSubstringOf (lowerStr g) (lowerStr query))
  let step1 :=
    if mentioned₀.isEmpty then
      let genes := BiomedicalDataFetcher.search_genes env query 5
      (genes.map RTNode.gene, genes.map (fun g => g.symbol))
    else
      (((mentioned₀.take 3).flatMap (fun g =>
          BiomedicalDataFetcher.search_genes env g 1)).map RTNode.gene,
        mentioned₀)
  let nodes₁ := step1.1
  let mentioned_genes := step1.2
  let publications := BiomedicalDataFetcher.search_publications env query
    (min 10 (max_nodes - (nodes₁.length : Int)))
  let nodes₂ := nodes₁ ++ publications.map RTNode.pub
  let step2 := (mentioned_genes.take 3).foldl (fun (acc : List RTNode × List RTEdge) g =>
      let assoc := (BiomedicalDataFetcher.search_disease_gene_associations env g).take 5
      let nodes' := assoc.foldl (fun ns e =>
          if ns.any (fun n => n.id == e.target) then ns
          else ns ++ [diseaseNodeFor e.target]) acc.1
      (nodes', acc.2 ++ assoc)) (nodes₂, [])
  let mentionEdges := publications.flatMap (fun pub =>
    let text := lowerStr (pub.title ++ " " ++ pub.abstract)
    (mentioned_genes.filter (fun g => isSubstringOf (lowerStr g) text)).map (fun g =>
      { source := pub.id
        target := "GENE_" ++ g
        relation := "MENTIONS"
        description := "Publication mentions " ++ g
        properties := [("pmid", .str pub.pmid)] : RTEdge }))
  ⟨step2.1, step2.2 ++ mentionEdges⟩

/- ### Live-backend expansion entry point (expand_realtime.py) -/

/-- A formatted node of `expand_subgraph_realtime` (lines 57-65): keys
`~id`, `~label`, `name`, `description`, plus the spread of the node's
properties.  `name` is `node.get("name", node.get("title",
node.get("symbol", "")))` and `description` is `node.get("description",
node.get("abstract", ""))`, resolved per dictionary shape. -/
structure RTNodeOut where
  tildeId : String
  tildeLabel : String
  name : String
  description : String
  extra : List (String × PVal)
deriving DecidableEq

/-- A formatted relationship of `expand_subgraph_realtime` (lines 67-76):
keys `~id`, `~from`, `~to`, `~label`, `description`, plus the spread of the
edge's properties. -/
structure RTRelOut where
  tildeId : String
  tildeFrom : String
  tildeTo : String
  tildeLabel : String
  description : String
  extra : List (String × PVal)
deriving DecidableEq

/-- The per-shape resolution of the formatter's defaulting `.get` chains:
gene dictionaries have `name`/`description` keys, publication dictionaries
fall through to `title`/`abstract`, disease dictionaries have
`name`/`description`. -/
def formatRTNode : RTNode → RTNodeOut
  | .gene g => ⟨g.id, "Gene", g.name, g.description, g.properties⟩
  | .pub p => ⟨p.id, "Publication", p.title, p.abstract, p.properties⟩
  | .disease d => ⟨d.id, "Disease", d.name, d.description, d.properties⟩

/-- The edge formatter of `expand_subgraph_realtime` (lines 67-76). -/
def formatRTEdge (e : RTEdge) : RTRelOut :=
  ⟨e.source ++ "__" ++ e.relation ++ "__" ++ e.target,
    e.source, e.target, e.relation, e.description, e.properties⟩

/-- Embedding of `expand_subgraph_realtime` (expand_realtime.py lines
18-81).  `question` is `seed_ids[0] if seed_ids else ""`; `max_nodes` is the
configured `retrieval.prune_max_nodes` (default 40); the `hops` and
`max_degree` parameters are accepted for interface compatibility and never
read; the NCBI credentials only shape the outgoing requests and live in the
response environment. -/
def expand_subgraph_realtime (env : ApiEnv) (max_nodes : Int)
    (seed_ids : List String) (hops max_degree : Nat) :
    List (ExpandOut RTNodeOut RTRelOut) :=
  let question := seed_ids.headD ""
  let graph := BiomedicalDataFetcher.build_realtime_graph env question max_nodes
  let formatted_nodes := graph.nodes.map formatRTNode
  let formatted_edges := graph.edges.map formatRTEdge
  [⟨formatted_nodes, formatted_edges⟩]

/- ### Rate limiting (realtime_apis.py lines 46-54)

`_rate_limit` reads the rolling `last_request_time`, sleeps for
`min_request_interval - elapsed` when the elapsed time is below the minimum
interval, and stores the post-sleep clock value back.  Wall-clock instants
are rationals; `time.sleep(d)` advances the clock by exactly `d`, so the
value returned by `rate_limit_step` is both the instant at which the call is
issued and the new `last_request_time`. -/

/-- `self.min_request_interval = 0.34` (NCBI rate limit). -/
def min_request_interval : ℚ := 34 / 100

/-- One `_rate_limit()` call: `last` is the stored `last_request_time`,
`now` the clock value on entry; the result is the clock value after the
conditional sleep, which the method stores as the new
`last_request_time`. -/
def rate_limit_step (last now : ℚ) : ℚ :=
  let elapsed := now - last
  if elapsed < min_request_interval then now + (min_request_interval - elapsed) else now

/-- The instant at which the last of a sequence of calls is issued, given
the stored timestamp `last` and the clock values `arrivals` at which the
callers enter `_rate_limit` (each no sooner than the previous call). -/
def last_call_time (last : ℚ) (arrivals : List ℚ) : ℚ :=
  arrivals.foldl rate_limit_step last

/- ### Concrete instances used by witnesses and counterexamples -/

/-- The sample-scenario graph: `EGFR —ASSOCIATED_WITH→ CC`. -/
def Gwitness : DiGraph :=
  ⟨[("EGFR", ⟨["Gene"], "EGFR", "", "Gene", []⟩),
    ("CC", ⟨["Disease"], "Colon Cancer", "", "Disease", []⟩)],
   [(("EGFR", "CC"), ⟨"ASSOCIATED_WITH", "", []⟩)],
   by decide, by decide, by decide⟩

/-- A response environment in which every HTTP call raises. -/
def envFail : ApiEnv :=
  ⟨fun _ _ => .error (), fun _ => .error (), fun _ _ => .error (), fun _ => .error ()⟩

/-- A PubMed article whose title mentions cancer. -/
def artA : PubmedArticle := { pmid := some "1", title := some "Cancer study A" }

/-- A second PubMed article whose title also mentions cancer. -/
def artB : PubmedArticle := { pmid := some "2", title := some "Cancer study B" }

/-- A response environment under which the disease search for EGFR returns
two publications that both mention cancer, and every other search is
empty. -/
def envTwoPubs : ApiEnv where
  gene_esearch _ _ := .ok []
  gene_esummary _ := .ok []
  pubmed_esearch term _ := if term = "EGFR AND disease[MeSH]" then .ok ["1", "2"] else .ok []
  pubmed_efetch ids := if ids = ["1", "2"] then .ok [artA, artB] else .ok []

/- ### C3 — empty seed list -/

/-- C3 counterexample: `expand_subgraph` with empty `seed_ids` does touch
the graph store — `load_local_graph` (line 118) runs before the empty-seed
check (line 120), so the load flag of the run is `true`. -/
theorem expand_empty_seeds_loads_graph_cex :
    (expand_subgraph Gwitness [] 2 10).2 = true := by
  decide

/-- C3 amended: for every graph, hop count and max_degree, `expand_subgraph`
with an empty `seed_ids` list returns the empty subgraph
`[{"nodes": [], "rels": []}]` without error, but only after loading the
graph store (the load flag is `true`). -/
theorem expand_empty_seeds_returns_empty :
    ∀ (G : DiGraph) (hops max_degree : Nat),
      expand_subgraph G [] hops max_degree = ([⟨[], []⟩], true) := by
  intro G hops max_degree
  rfl

/- ### C10 — both entry points return one `nodes`/`rels` dictionary -/

/-- C10: for every input, both expansion entry points return a list of
exactly one dictionary, whose two keys `"nodes"` and `"rels"` (the fields of
`ExpandOut`) are lists by construction. -/
theorem expand_entry_points_single_dict (G : DiGraph) (env : ApiEnv)
    (max_nodes : Int) (seed_ids : List String) (hops max_degree : Nat) :
    (expand_subgraph G seed_ids hops max_degree).1.length = 1 ∧
    (expand_subgraph_realtime env max_nodes seed_ids hops max_degree).length = 1 := by
  constructor
  · cases seed_ids <;> rfl
  · rfl

/- ### C8 — the live backend ignores `hops` and `max_degree` -/

/-- C8: the live-backend expansion depends only on `seed_ids[0]` (the raw
question, `""` when the list is empty): two runs that agree on it and on the
environment produce equal results whatever their `hops` and `max_degree`
arguments. -/
theorem realtime_ignores_hops_max_degree (env : ApiEnv) (max_nodes : Int)
    (S S' : List String) (h₁ d₁ h₂ d₂ : Nat)
    (hq : S.headD "" = S'.headD "") :
    expand_subgraph_realtime env max_nodes S h₁ d₁ =
      expand_subgraph_realtime env max_nodes S' h₂ d₂ := by
  unfold expand_subgraph_realtime
  rw [hq]

/-- C8 witness: two concrete runs differing in the seed tail, the hop count
and the degree cap coincide. -/
theorem realtime_ignores_hops_max_degree_witness :
    (["q"].headD "" = ["q", "r"].headD "") ∧
    expand_subgraph_realtime envFail 40 ["q"] 2 10 =
      expand_subgraph_realtime envFail 40 ["q", "r"] 5 3 :=
  ⟨rfl, realtime_ignores_hops_max_degree envFail 40 ["q"] ["q", "r"] 2 10 5 3 rfl⟩

/- ### C9 — rate limiting lower-bounds the total wall-clock time -/

/-- Each `_rate_limit` call issues at least `min_request_interval` after the
stored previous-call timestamp. -/
theorem rate_limit_step_ge (last now : ℚ) :
    last + min_request_interval ≤ rate_limit_step last now := by
  unfold rate_limit_step
  dsimp only
  split
  · linarith
  · linarith [not_lt.mp (by assumption : ¬ now - last < min_request_interval)]

/-- Issuing the calls of `arrivals` after stored timestamp `last` ends at
least `arrivals.length` intervals after `last`. -/
theorem last_call_time_ge (arrivals : List ℚ) :
    ∀ last : ℚ, last + arrivals.length * min_request_interval ≤
      last_call_time last arrivals := by
  induction arrivals with
  | nil => intro last; simp [last_call_time]
  | cons a t ih =>
    intro last
    have h₁ := rate_limit_step_ge last a
    have h₂ := ih (rate_limit_step last a)
    have : last_call_time last (a :: t) = last_call_time (rate_limit_step last a) t := rfl
    rw [this]
    simp only [List.length_cons]
    push_cast
    nlinarith [h₁, h₂]

/-- C9: for every sequence of `N ≥ 1` calls through one fetcher instance
(arrival clock values `a₁ :: rest`, stored timestamp `last₀`), the wall
clock from the instant the first call is issued to the instant the last call
is issued is at least `(N - 1) * min_request_interval`: before each call the
client computes the elapsed time since the previous one and sleeps for the
remainder. -/
theorem rate_limit_total_time_lower_bound (last₀ a₁ : ℚ) (rest : List ℚ) :
    rate_limit_step last₀ a₁ +
        (((a₁ :: rest).length - 1 : ℕ) : ℚ) * min_request_interval ≤
      last_call_time last₀ (a₁ :: rest) := by
  have h : last_call_time last₀ (a₁ :: rest) =
      last_call_time (rate_limit_step last₀ a₁) rest := rfl
  rw [h]
  simpa using last_call_time_ge rest (rate_limit_step last₀ a₁)

/- ### C6 — upstream failures degrade to empty results -/

/-- C6: every failure of the underlying HTTP call or of response parsing
(timeout, non-2xx status, malformed JSON/XML — all of which raise inside the
`try` block and are the `Except.error` responses of the environment) makes
each of the four fetch operations return the empty list instead of
propagating the error (the operations are total functions into lists, so no
error can escape). -/
theorem fetchers_degrade_to_empty_on_failure (env : ApiEnv) (query : String)
    (m : Int) (ids pmids : List String) :
    (env.gene_esearch (query ++ "[Gene Name] AND Homo sapiens[Organism]") m = .error () →
      BiomedicalDataFetcher.search_genes env query m = []) ∧
    (env.gene_esummary ids = .error () →
      BiomedicalDataFetcher.fetch_gene_details env ids = []) ∧
    (env.pubmed_esearch query m = .error () →
      BiomedicalDataFetcher.search_publications env query m = []) ∧
    (env.pubmed_efetch pmids = .error () →
      BiomedicalDataFetcher.fetch_publication_details env pmids = []) := by
  refine ⟨fun h => ?_, fun h => ?_, fun h => ?_, fun h => ?_⟩
  · simp [BiomedicalDataFetcher.search_genes, h]
  · simp [BiomedicalDataFetcher.fetch_gene_details, h]
  · simp [BiomedicalDataFetcher.search_publications, h]
  · simp [BiomedicalDataFetcher.fetch_publication_details, h]

/-- C6 witness: under the all-failing environment, each of the four
operations returns the empty list. -/
theorem fetchers_degrade_to_empty_on_failure_witness :
    envFail.gene_esearch ("TP53" ++ "[Gene Name] AND Homo sapiens[Organism]") 10 = .error () ∧
    BiomedicalDataFetcher.search_genes envFail "TP53" 10 = [] ∧
    BiomedicalDataFetcher.fetch_gene_details envFail ["7157"] = [] ∧
    BiomedicalDataFetcher.search_publications envFail "TP53" 10 = [] ∧
    BiomedicalDataFetcher.fetch_publication_details envFail ["1"] = [] :=
  ⟨rfl,
   (fetchers_degrade_to_empty_on_failure envFail "TP53" 10 ["7157"] ["1"]).1 rfl,
   (fetchers_degrade_to_empty_on_failure envFail "TP53" 10 ["7157"] ["1"]).2.1 rfl,
   (fetchers_degrade_to_empty_on_failure envFail "TP53" 10 ["7157"] ["1"]).2.2.1 rfl,
   (fetchers_degrade_to_empty_on_failure envFail "TP53" 10 ["7157"] ["1"]).2.2.2 rfl⟩

/- ### C7 — edge deduplication by (source, target, relation) -/

/-- C7 counterexample: the edge list built by `build_realtime_graph` is not
unique by the (source, target, relation) triple — with two publications both
mentioning cancer for the gene EGFR, the triple
(GENE_EGFR, DISEASE_CANCER, ASSOCIATED_WITH) appears twice. -/
theorem realtime_edges_duplicate_triple_cex :
    ¬ (((BiomedicalDataFetcher.build_realtime_graph envTwoPubs "EGFR" 30).edges.map
        (fun e => (e.source, e.target, e.relation))).Nodup) := by
  decide

/-- C7 amended: the live backend does not deduplicate edges by the
(source, target, relation) triple — each supporting publication contributes
its own edge, so the same triple can repeat across publications — and
uniqueness by triple holds only among the association edges contributed by a
single publication for a single gene symbol (their targets are distinct
disease ids of the fixed keyword table). -/
theorem associations_per_publication_nodup (gene_symbol : String) (pub : Publication) :
    ((associationsForPub gene_symbol pub).map
      (fun e => (e.source, e.target, e.relation))).Nodup := by
  unfold associationsForPub
  rw [List.map_map]
  have hkey : ∀ x ∈ disease_keywords, ∀ y ∈ disease_keywords, x.2 = y.2 → x = y := by
    decide
  have hnodup : disease_keywords.Nodup := by decide
  refine List.Nodup.map_on ?_ (hnodup.filter _)
  intro x hx y hy hxy
  have hx' := (List.mem_filter.mp hx).1
  have hy' := (List.mem_filter.mp hy).1
  exact hkey x hx' y hy' (by simpa using congrArg (fun t => t.2.1) hxy)

/- ### C1, C2 — local expansion -/

/-- Membership in the returned node-id list, for a non-empty seed list: a
node id is returned iff it is a node of the graph that lies in the
`expanded_nodes` set of the hop loop. -/
theorem mem_expandNodeIds (G : DiGraph) (S : List String) (h d : Nat)
    (hne : S ≠ []) (x : String) :
    x ∈ expandNodeIds G S h d ↔
      x ∈ G.nodeIds ∧ x ∈ (expandIter G d h (S.dedup, S.dedup)).1 := by
  have hne' : S.isEmpty = false := List.isEmpty_eq_false.mpr hne
  unfold expandNodeIds expand_subgraph
  simp only [hne', Bool.false_eq_true, if_false, List.headD, List.map_map]
  simp only [List.mem_map, List.mem_filter, Function.comp, decide_eq_true_eq,
    DiGraph.nodeIds]
  constructor
  · rintro ⟨p, ⟨hpG, hpe⟩, rfl⟩
    exact ⟨⟨p, hpG, rfl⟩, hpe⟩
  · rintro ⟨⟨p, hpG, rfl⟩, hpe⟩
    exact ⟨p, ⟨hpG, hpe⟩, rfl⟩

/-- Membership in the returned (source, target) pairs, for a non-empty seed
list: a pair is returned iff it is an edge of the graph with both endpoints
in the `expanded_nodes` set of the hop loop. -/
theorem mem_expandEdgePairs (G : DiGraph) (S : List String) (h d : Nat)
    (hne : S ≠ []) (st : String × String) :
    st ∈ expandEdgePairs G S h d ↔
      st ∈ G.edges.map Prod.fst ∧
        st.1 ∈ (expandIter G d h (S.dedup, S.dedup)).1 ∧
        st.2 ∈ (expandIter G d h (S.dedup, S.dedup)).1 := by
  have hne' : S.isEmpty = false := List.isEmpty_eq_false.mpr hne
  unfold expandEdgePairs expand_subgraph
  simp only [hne', Bool.false_eq_true, if_false, List.headD, List.map_map]
  simp only [List.mem_map, List.mem_filter, Function.comp, Bool.and_eq_true,
    decide_eq_true_eq]
  constructor
  · rintro ⟨e, ⟨heG, he1, he2⟩, rfl⟩
    exact ⟨⟨e, heG, Prod.mk.eta⟩, he1, he2⟩
  · rintro ⟨⟨e, heG, rfl⟩, he1, he2⟩
    exact ⟨e, ⟨heG, he1, he2⟩, Prod.mk.eta⟩

/-- C1: with zero hops and seeds that are all nodes of the graph, the
returned subgraph has exactly the seed ids as nodes and exactly the edges of
the graph whose source and target are both seeds, for any `max_degree`. -/
theorem expand_hops_zero_exact (G : DiGraph) (S : List String) (d : Nat)
    (hS : ∀ s ∈ S, s ∈ G.nodeIds) :
    (∀ x, x ∈ expandNodeIds G S 0 d ↔ x ∈ S) ∧
    (∀ st : String × String, st ∈ expandEdgePairs G S 0 d ↔
      st ∈ G.edges.map Prod.fst ∧ st.1 ∈ S ∧ st.2 ∈ S) := by
  rcases eq_or_ne S [] with rfl | hne
  · exact ⟨fun x => Iff.rfl, fun st => by
      constructor
      · intro hst
        exact absurd hst (List.not_mem_nil st)
      · rintro ⟨-, hst, -⟩
        exact absurd hst (List.not_mem_nil st.1)⟩
  · have h0 : expandIter G d 0 (S.dedup, S.dedup) = (S.dedup, S.dedup) := rfl
    constructor
    · intro x
      rw [mem_expandNodeIds G S 0 d hne, h0]
      simp only [List.mem_dedup]
      exact ⟨fun hx => hx.2, fun hx => ⟨hS x hx, hx⟩⟩
    · intro st
      rw [mem_expandEdgePairs G S 0 d hne, h0]
      simp only [List.mem_dedup]

/-- C1 witness: on the sample graph with seed list `["EGFR"]`, zero hops
return exactly the seed node and no edge (the one edge leaves the seed
set). -/
theorem expand_hops_zero_exact_witness :
    (∀ s ∈ ["EGFR"], s ∈ Gwitness.nodeIds) ∧
    ((∀ x, x ∈ expandNodeIds Gwitness ["EGFR"] 0 10 ↔ x ∈ ["EGFR"]) ∧
     (∀ st : String × String, st ∈ expandEdgePairs Gwitness ["EGFR"] 0 10 ↔
       st ∈ Gwitness.edges.map Prod.fst ∧ st.1 ∈ ["EGFR"] ∧ st.2 ∈ ["EGFR"])) :=
  ⟨by decide, expand_hops_zero_exact Gwitness ["EGFR"] 10 (by decide)⟩

/-- The `expanded_nodes` component of the hop loop only ever grows with one
more iteration. -/
theorem expandIter_fst_mono (G : DiGraph) (d n : Nat)
    (st : List String × List String) :
    (expandIter G d n st).1 ⊆ (expandIter G d (n + 1) st).1 := by
  intro x hx
  show x ∈ (expandStep G d (expandIter G d n st)).1
  exact List.mem_append.mpr (Or.inl hx)

/-- C2: for every graph, seed list, max_degree and hop count, every node id
returned at `h` hops is also returned at `h + 1` hops. -/
theorem expand_nodes_monotone_in_hops (G : DiGraph) (S : List String)
    (d h : Nat) (x : String) (hx : x ∈ expandNodeIds G S h d) :
    x ∈ expandNodeIds G S (h + 1) d := by
  rcases eq_or_ne S [] with rfl | hne
  · exact hx
  · rw [mem_expandNodeIds G S h d hne] at hx
    rw [mem_expandNodeIds G S (h + 1) d hne]
    exact ⟨hx.1, expandIter_fst_mono G d h _ hx.2⟩

/-- C2 witness: on the sample graph, the seed returned at zero hops is still
returned at one hop. -/
theorem expand_nodes_monotone_in_hops_witness :
    "EGFR" ∈ expandNodeIds Gwitness ["EGFR"] 0 10 ∧
    "EGFR" ∈ expandNodeIds Gwitness ["EGFR"] 1 10 :=
  ⟨by decide,
   expand_nodes_monotone_in_hops Gwitness ["EGFR"] 10 0 "EGFR" (by decide)⟩

/- ### C4, C5 — vector query properties -/

/-- An exact flat L2 search returns `min k n` hits. -/
theorem length_L2_search (vecs : List (List ℚ)) (q : List ℚ) (k : Nat) :
    (IndexFlatL2.search vecs q k).length = min k vecs.length := by
  unfold IndexFlatL2.search
  rw [List.length_take, List.length_insertionSort, List.enum_length, List.length_map]

/-- An exact flat IP search returns `min k n` hits. -/
theorem length_IP_search (vecs : List (List ℚ)) (q : List ℚ) (k : Nat) :
    (IndexFlatIP.search vecs q k).length = min k vecs.length := by
  unfold IndexFlatIP.search
  rw [List.length_take, List.length_insertionSort, List.enum_length, List.length_map]

/-- Every L2 hit indexes an existing row. -/
theorem mem_L2_search_lt (vecs : List (List ℚ)) (q : List ℚ) (k : Nat)
    (p : Nat × ℚ) (hp : p ∈ IndexFlatL2.search vecs q k) : p.1 < vecs.length := by
  unfold IndexFlatL2.search at hp
  have h2 : p ∈ ((vecs.map (l2sq q)).enum) :=
    (List.perm_insertionSort distLE _).subset ((List.take_sublist _ _).subset hp)
  rw [List.mem_enum_iff_getElem?] at h2
  obtain ⟨h, -⟩ := List.getElem?_eq_some_iff.mp h2
  simpa using h

/-- Every IP hit indexes an existing row. -/
theorem mem_IP_search_lt (vecs : List (List ℚ)) (q : List ℚ) (k : Nat)
    (p : Nat × ℚ) (hp : p ∈ IndexFlatIP.search vecs q k) : p.1 < vecs.length := by
  unfold IndexFlatIP.search at hp
  have h2 : p ∈ ((vecs.map (dotIP q)).enum) :=
    (List.perm_insertionSort simGE _).subset ((List.take_sublist _ _).subset hp)
  rw [List.mem_enum_iff_getElem?] at h2
  obtain ⟨h, -⟩ := List.getElem?_eq_some_iff.mp h2
  simpa using h

/-- L2 hits come in ascending distance order. -/
theorem pairwise_L2_search (vecs : List (List ℚ)) (q : List ℚ) (k : Nat) :
    (IndexFlatL2.search vecs q k).Pairwise distLE :=
  List.Pairwise.sublist (List.take_sublist _ _) (List.sorted_insertionSort distLE _)

/-- IP hits come in descending score order. -/
theorem pairwise_IP_search (vecs : List (List ℚ)) (q : List ℚ) (k : Nat) :
    (IndexFlatIP.search vecs q k).Pairwise simGE :=
  List.Pairwise.sublist (List.take_sublist _ _) (List.sorted_insertionSort simGE _)

/-- `filterMap` keeps the length when no element is dropped. -/
theorem length_filterMap_of_isSome {α β : Type} (f : α → Option β) :
    ∀ l : List α, (∀ a ∈ l, (f a).isSome) → (l.filterMap f).length = l.length := by
  intro l
  induction l with
  | nil => intro _; rfl
  | cons a t ih =>
    intro h
    obtain ⟨b, hb⟩ := Option.isSome_iff_exists.mp (h a (List.mem_cons_self a t))
    have ht := ih (fun x hx => h x (List.mem_cons_of_mem a hx))
    simp [List.filterMap_cons, hb, ht]

/-- A kept hit of `query_vectors` carries the hit's score, and a namespace
from the filter whenever the filter is non-empty. -/
theorem qv_entry_some (ns : List String) (store : List VSRec) (p : Nat × ℚ)
    (b : VSOut) (hb : qv_entry ns store p = some b) :
    b.score = p.2 ∧ (ns ≠ [] → b.nspace ∈ ns) := by
  unfold qv_entry at hb
  split at hb
  · exact absurd hb (by simp)
  · split at hb
    · exact absurd hb (by simp)
    · rename_i hcond
      push_neg at hcond
      simp only [Option.some.injEq] at hb
      subst hb
      exact ⟨rfl, fun hne => hcond hne⟩

/-- `query_local_vectors` returns at most `top_k` results. -/
theorem qlv_length_le (store : List LocalRec) (q : List ℚ) (k : Nat) :
    (query_local_vectors store q k).length ≤ k := by
  unfold query_local_vectors
  split
  · simp
  · refine le_trans (List.length_filterMap_le _ _) ?_
    rw [length_L2_search, List.length_map]
    exact le_trans (min_le_left _ _) (min_le_left _ _)

/-- `query_local_vectors` results come in ascending distance order. -/
theorem qlv_sorted (store : List LocalRec) (q : List ℚ) (k : Nat) :
    (query_local_vectors store q k).Pairwise (fun a b => a.score ≤ b.score) := by
  unfold query_local_vectors
  split
  · simp
  · rw [List.pairwise_filterMap]
    refine (pairwise_L2_search _ _ _).imp ?_
    intro p p' hpp b hb b' hb'
    rcases ho : store[p.1]? with _ | rec
    · rw [ho] at hb; simp at hb
    · rcases ho' : store[p'.1]? with _ | rec'
      · rw [ho'] at hb'; simp at hb'
      · rw [ho] at hb
        rw [ho'] at hb'
        simp only [Option.map_some', Option.mem_def, Option.some.injEq] at hb hb'
        subst hb
        subst hb'
        exact hpp

/-- With fewer rows than `top_k`, `query_local_vectors` returns exactly
`index.ntotal` results. -/
theorem qlv_exact (store : List LocalRec) (q : List ℚ) (k : Nat)
    (hlt : store.length < k) :
    (query_local_vectors store q k).length = store.length := by
  unfold query_local_vectors
  split
  · simp only [List.length_nil]
    omega
  · rw [length_filterMap_of_isSome]
    · rw [length_L2_search, List.length_map]
      omega
    · intro p hp
      have hidx := mem_L2_search_lt _ _ _ p hp
      rw [List.length_map] at hidx
      rw [List.getElem?_eq_getElem hidx]
      rfl

/-- An empty index makes `query_local_vectors` return the empty list. -/
theorem qlv_zero (store : List LocalRec) (q : List ℚ) (k : Nat)
    (h0 : store.length = 0) : query_local_vectors store q k = [] := by
  unfold query_local_vectors
  simp [h0]

/-- `query_vectors` returns at most `top_k` results. -/
theorem qv_length_le (ns : List String) (store : List VSRec) (q : List ℚ) (k : Nat) :
    (query_vectors ns store q k).length ≤ k := by
  unfold query_vectors
  split
  · simp
  · refine le_trans (List.length_filterMap_le _ _) ?_
    rw [length_IP_search, List.length_map]
    exact min_le_left _ _

/-- `query_vectors` results come in descending score order. -/
theorem qv_sorted (ns : List String) (store : List VSRec) (q : List ℚ) (k : Nat) :
    (query_vectors ns store q k).Pairwise (fun a b => b.score ≤ a.score) := by
  unfold query_vectors
  split
  · simp
  · rw [List.pairwise_filterMap]
    refine (pairwise_IP_search _ _ _).imp ?_
    intro p p' hpp b hb b' hb'
    rw [Option.mem_def] at hb hb'
    rw [(qv_entry_some ns store p b hb).1, (qv_entry_some ns store p' b' hb').1]
    exact hpp

/-- With the default empty namespace filter and fewer rows than `top_k`,
`query_vectors` returns exactly `index.ntotal` results. -/
theorem qv_exact_nofilter (store : List VSRec) (q : List ℚ) (k : Nat)
    (hlt : store.length < k) :
    (query_vectors [] store q k).length = store.length := by
  unfold query_vectors
  split
  · simp only [List.length_nil]
    omega
  · rw [length_filterMap_of_isSome]
    · rw [length_IP_search, List.length_map]
      omega
    · intro p hp
      have hidx := mem_IP_search_lt _ _ _ p hp
      rw [List.length_map] at hidx
      unfold qv_entry
      rw [List.getElem?_eq_getElem hidx]
      simp

/-- An empty index makes `query_vectors` return the empty list. -/
theorem qv_zero (ns : List String) (store : List VSRec) (q : List ℚ) (k : Nat)
    (h0 : store.length = 0) : query_vectors ns store q k = [] := by
  unfold query_vectors
  simp [h0]

/-- C4: for every index state and `k ≥ 1`, a vector query — via
`query_local_vectors` (L2) or `query_vectors` (inner product, with the
default empty namespace filter where the result count is concerned) —
returns at most `k` results, in order of non-increasing similarity
(ascending distance for L2, descending score for IP); with fewer than `k`
rows it returns exactly `index.ntotal` results, and with zero rows the empty
list. -/
theorem query_topk_bounds_sorted (store : List LocalRec) (store2 : List VSRec)
    (ns : List String) (q q2 : List ℚ) (k : Nat) (hk : 1 ≤ k) :
    (query_local_vectors store q k).length ≤ k ∧
    (query_local_vectors store q k).Pairwise (fun a b => a.score ≤ b.score) ∧
    (store.length < k → (query_local_vectors store q k).length = store.length) ∧
    (store.length = 0 → query_local_vectors store q k = []) ∧
    (query_vectors ns store2 q2 k).length ≤ k ∧
    (query_vectors ns store2 q2 k).Pairwise (fun a b => b.score ≤ a.score) ∧
    (store2.length < k → (query_vectors [] store2 q2 k).length = store2.length) ∧
    (store2.length = 0 → query_vectors ns store2 q2 k = []) :=
  ⟨qlv_length_le store q k, qlv_sorted store q k,
   fun hlt => qlv_exact store q k hlt, fun h0 => qlv_zero store q k h0,
   qv_length_le ns store2 q2 k, qv_sorted ns store2 q2 k,
   fun hlt => qv_exact_nofilter store2 q2 k hlt, fun h0 => qv_zero ns store2 q2 k h0⟩

/-- C4 witness: at `k = 1` on the empty index, the exact-count and
empty-result clauses hold. -/
theorem query_topk_bounds_sorted_witness :
    1 ≤ 1 ∧
    (query_local_vectors [] ([] : List ℚ) 1).length = ([] : List LocalRec).length ∧
    query_vectors [] [] ([] : List ℚ) 1 = [] :=
  ⟨le_refl 1,
   (query_topk_bounds_sorted [] [] [] [] [] 1 (le_refl 1)).2.2.1 (by decide),
   (query_topk_bounds_sorted [] [] [] [] [] 1 (le_refl 1)).2.2.2.2.2.2.2 rfl⟩

/-- C5: with a non-empty configured namespace filter, every returned row's
namespace lies in the filter; and since the filter is applied only after the
top-k search, there are runs returning fewer than `top_k` rows although the
index holds at least `top_k` vectors. -/
theorem query_namespace_filter_post (ns : List String) (store : List VSRec)
    (q : List ℚ) (k : Nat) (hns : ns ≠ []) :
    (∀ out ∈ query_vectors ns store q k, out.nspace ∈ ns) ∧
    (∃ ns' store' q' k', ns' ≠ [] ∧ k' ≤ store'.length ∧
      (query_vectors ns' store' q' k').length < k') := by
  constructor
  · intro out hout
    unfold query_vectors at hout
    split at hout
    · simp at hout
    · rw [List.mem_filterMap] at hout
      obtain ⟨p, -, hfp⟩ := hout
      exact (qv_entry_some ns store p out hfp).2 hns
  · exact ⟨["A"], [⟨"x", "T", "B", []⟩, ⟨"y", "T", "A", []⟩], [], 2,
      by decide, by decide, by decide⟩

/-- C5 witness: a concrete run with the filter `["A"]`. -/
theorem query_namespace_filter_post_witness :
    (["A"] : List String) ≠ [] ∧
    (∀ out ∈ query_vectors ["A"] [⟨"y", "T", "A", []⟩] ([] : List ℚ) 1,
      out.nspace ∈ (["A"] : List String)) :=
  ⟨by decide,
   (query_namespace_filter_post ["A"] [⟨"y", "T", "A", []⟩] [] 1 (by decide)).1⟩
